import Mathlib

/-!
Shallow embedding of the message-broker channel registry and routing engine.

The repository contains three revisions of the broker core:
* an adapter-bridge revision (src/main/core/messagebroker.ts, second revision,
  and the standalone revision in src/unnamed/part_005) that fans publishes out
  to registered external adapters and surfaces per-adapter failures on an
  error stream; and
* a scope-tree revision (src/main/core/messagebroker.ts, first revision) in
  which broker instances form a named tree of scopes.

The embedding below models the rxjs plumbing operationally: the central
Subject is a broadcast point, a channel observable is either a plain filtered
view of the Subject or a shareReplay node holding the last `cap` messages,
and subscribing to the deferred observable returned by `get`/`stream`
resolves the channel at subscription time.
-/

namespace MB

/-- A published message envelope (src/unnamed/part_005 `createMessage`):
channel name, payload, optional type tag, timestamp and unique id. Payloads
are modelled as natural numbers; ids are drawn from a fresh counter, which
models the uniqueness of uuid v4 identifiers. -/
structure Msg where
  channelName : String
  data : Nat
  mtype : Option String
  timestamp : Nat
  mid : Nat
deriving DecidableEq, Repr

/-- Channel configuration (contracts.ts `IMessageBrokerConfig`): the
`replayCacheSize` field is optional, so a present-but-empty config object
carries `none`. -/
structure IMessageBrokerConfig where
  replayCacheSize : Option Nat
deriving DecidableEq, Repr

/-- helper.functions.ts `isCacheSizeEqual`: both arguments default to an
empty object when undefined and the `replayCacheSize` fields are compared
with strict equality (undefined === undefined holds). -/
def isCacheSizeEqual (firstConfig secondConfig : Option IMessageBrokerConfig) : Bool :=
  (firstConfig.getD ⟨none⟩).replayCacheSize == (secondConfig.getD ⟨none⟩).replayCacheSize

/-- JavaScript truthiness of `config?.replayCacheSize`: the cached branch of
`createChannelImpl` runs only when the chain yields a non-zero number. -/
def truthyCacheSize (config : Option IMessageBrokerConfig) : Option Nat :=
  match config with
  | some c =>
    match c.replayCacheSize with
    | some n => if n = 0 then none else some n
    | none => none
  | none => none

/-- The observable stored in a channel model: either the plain
channel-name-filtered view of the central Subject, or a shareReplay node
(identified by its index in the replay-node store). -/
inductive Target where
  | filtered (name : String)
  | replay (idx : Nat)
deriving DecidableEq, Repr

/-- A live shareReplay(cap) node: it stays connected to the central Subject
(the keepalive subscription in `createChannelImpl` connects it at creation,
and shareReplay with a plain buffer size never disconnects), buffering the
last `cap` matching messages. -/
structure ReplayNode where
  name : String
  cap : Nat
  buf : List Msg
deriving DecidableEq, Repr

/-- The channel handle (`IChannel`): `publish` closes over the channel name
only and `stream` is the deferred observable for that name, so the handle is
determined by its name plus its object identity `hid` (each run of
`createChannelImpl` builds a fresh handle object). -/
structure ChannelHandle where
  hid : Nat
  channelName : String
deriving DecidableEq, Repr

/-- Internal channel model (`IChannelModel`): observable, handle, the config
object when one was passed, and the keepalive subscription (the index of the
replay node it keeps warm) when caching is active. -/
structure ChannelModel where
  obs : Target
  channel : ChannelHandle
  config : Option IMessageBrokerConfig
  subscription : Option Nat
deriving DecidableEq, Repr

/-- An external subscriber together with the messages delivered to it so
far, oldest first. -/
structure Subscriber where
  target : Target
  received : List Msg
deriving DecidableEq, Repr

/-- An external transport adapter, modelled by its observable outcomes:
`sendOutcome m` is the error a `sendMessage m` promise rejects with (none
when it resolves), and `connectOutcome` likewise for `connect()`. -/
structure Adapter where
  sendOutcome : Msg → Option Nat
  connectOutcome : Option Nat

/-- An `IAdapterError` record pushed to the error stream: `channelName` and
`message` are populated only for send failures, not connect failures. -/
structure AdapterError where
  adapterId : Nat
  channelName : Option String
  message : Option Msg
  error : Nat
  timestamp : Nat
deriving DecidableEq, Repr

/-- Association-list lookup mirroring a plain-object property read. -/
def lookupAssoc {α : Type} (k : String) (l : List (String × α)) : Option α :=
  (l.find? (fun p => p.1 == k)).map (fun p => p.2)

/-- Association-list update mirroring a plain-object property write. -/
def setAssoc {α : Type} (k : String) (v : α) (l : List (String × α)) : List (String × α) :=
  (k, v) :: l.filter (fun p => p.1 != k)

/-- Association-list removal mirroring the `delete` operator. -/
def eraseAssoc {α : Type} (k : String) (l : List (String × α)) : List (String × α) :=
  l.filter (fun p => p.1 != k)

/-- The last `n` elements of a list, in order: the contents of a
shareReplay(n) buffer. -/
def takeLast {α : Type} (n : Nat) (l : List α) : List α :=
  l.drop (l.length - n)

/-- Broker state for the adapter-bridge revision (src/unnamed/part_005):
channel registry, replay nodes, live subscribers, the adapter registry with
its inbound-forwarding subscriptions, the error stream (as the list of
records emitted so far), the log of `sendMessage` invocations, and the fresh
counters standing in for uuid generation and Date.now(). -/
structure BrokerState where
  channels : List (String × ChannelModel)
  replays : List ReplayNode
  subs : List Subscriber
  adapters : List (Nat × Adapter)
  inboundSubs : List Nat
  errors : List AdapterError
  sendLog : List (Nat × Msg)
  nextHandleId : Nat
  nextMsgId : Nat
  nextAdapterId : Nat
  clock : Nat

/-- The empty broker. -/
def initialState : BrokerState :=
  ⟨[], [], [], [], [], [], [], 0, 0, 0, 0⟩

/-- Whether a message on channel `name` is delivered to a subscriber of the
given observable: a filtered view matches by name, a shareReplay node
matches when its source filter does. -/
def deliversTo (replays : List ReplayNode) (t : Target) (name : String) : Bool :=
  match t with
  | .filtered n => n == name
  | .replay i =>
    match replays[i]? with
    | some nd => nd.name == name
    | none => false

/-- Pushing a message onto the central Subject (`messagePublisher.next`):
every connected replay node whose filter matches appends it to its bounded
buffer, and every subscriber whose observable matches receives it. -/
def subjectNext (s : BrokerState) (m : Msg) : BrokerState :=
  { s with
    replays := s.replays.map (fun nd =>
      if nd.name == m.channelName then
        { nd with buf := takeLast nd.cap (nd.buf ++ [m]) }
      else nd),
    subs := s.subs.map (fun su =>
      if deliversTo s.replays su.target m.channelName then
        { su with received := su.received ++ [m] }
      else su) }

/-- part_005 `createMessage`: wraps a payload with the channel name, a fresh
id and the current time. -/
def createMessage (s : BrokerState) (channelName : String) (d : Nat) (ty : Option String) : Msg :=
  ⟨channelName, d, ty, s.clock, s.nextMsgId⟩

/-- part_005 `createChannelImpl`: builds the filtered observable, upgrades it
to shareReplay with an immediate keepalive subscription when the config
carries a truthy `replayCacheSize`, builds a fresh handle, and stores the
model (with `config`/`subscription` only when a config object was passed). -/
def createChannelImpl (s : BrokerState) (channelName : String)
    (config : Option IMessageBrokerConfig) : ChannelModel × BrokerState :=
  match truthyCacheSize config with
  | some n =>
    let idx := s.replays.length
    let handle : ChannelHandle := ⟨s.nextHandleId, channelName⟩
    let model : ChannelModel := ⟨.replay idx, handle, config, some idx⟩
    (model,
      { s with
        replays := s.replays ++ [⟨channelName, n, []⟩],
        channels := setAssoc channelName model s.channels,
        nextHandleId := s.nextHandleId + 1 })
  | none =>
    let handle : ChannelHandle := ⟨s.nextHandleId, channelName⟩
    let model : ChannelModel := ⟨.filtered channelName, handle, config, none⟩
    (model,
      { s with
        channels := setAssoc channelName model s.channels,
        nextHandleId := s.nextHandleId + 1 })

/-- part_005 `isChannelConfiguredWithCaching`: a model counts as cached when
its keepalive subscription is present. -/
def isChannelConfiguredWithCaching (m : ChannelModel) : Bool :=
  m.subscription.isSome

/-- The message of the configuration-conflict error thrown by
`createCachedChannel`. -/
def conflictMessage (channelName : String) : String :=
  "A channel already exists with the name \x27" ++ channelName ++
    "\x27. A channel with the same name cannot be created with a different cache size"

/-- part_005 `create` (together with `createCachedChannel`): get-or-create
with a synchronous conflict error when an existing cached channel is
re-created with a different cache size. The returned state is the broker
after the call; a thrown error leaves it untouched. -/
def create (s : BrokerState) (channelName : String) (config : Option IMessageBrokerConfig) :
    Except String ChannelHandle × BrokerState :=
  match lookupAssoc channelName s.channels with
  | none =>
    let r := createChannelImpl s channelName config
    (.ok r.1.channel, r.2)
  | some existing =>
    match config with
    | none => (.ok existing.channel, s)
    | some cfg =>
      if isChannelConfiguredWithCaching existing && !(isCacheSizeEqual existing.config (some cfg)) then
        (.error (conflictMessage channelName), s)
      else
        let r := createChannelImpl s channelName (some cfg)
        (.ok r.1.channel, r.2)

/-- Subscribing to the deferred observable returned by `get`/`stream`
(part_005 `getDeferredObservable`): the channel is resolved now; if none
exists it is implicitly created with no config. A subscriber on a
shareReplay node synchronously receives the buffered history. -/
def subscribe (s : BrokerState) (channelName : String) : BrokerState :=
  match lookupAssoc channelName s.channels with
  | some m =>
    let initial : List Msg :=
      match m.obs with
      | .replay i =>
        match s.replays[i]? with
        | some nd => nd.buf
        | none => []
      | .filtered _ => []
    { s with subs := s.subs ++ [⟨m.obs, initial⟩] }
  | none =>
    let r := createChannelImpl s channelName none
    { r.2 with subs := r.2.subs ++ [(⟨r.1.obs, []⟩ : Subscriber)] }

/-- One iteration of the adapter fan-out loop of part_005's
`publishFunction`: `sendMessage` is invoked on one adapter (logged), and a
rejected send is caught and converted into an error-stream record carrying
the adapter id, channel name, message, error and timestamp. -/
def adapterSendStep (m : Msg) (channelName : String) (now : Nat)
    (acc : BrokerState) (p : Nat × Adapter) : BrokerState :=
  let acc1 := { acc with sendLog := acc.sendLog ++ [(p.1, m)] }
  match p.2.sendOutcome m with
  | some e => { acc1 with errors := acc1.errors ++ [(⟨p.1, some channelName, some m, e, now⟩ : AdapterError)] }
  | none => acc1

/-- The `Object.entries(this.adapters).forEach` fan-out loop of part_005's
`publishFunction`. -/
def adapterFanOut (m : Msg) (channelName : String) (now : Nat)
    (adapters : List (Nat × Adapter)) (s : BrokerState) : BrokerState :=
  adapters.foldl (adapterSendStep m channelName now) s

/-- part_005 `publishFunction`: create the message, push it onto the central
Subject (synchronous local delivery), then fan out to every registered
adapter. -/
def publish (s : BrokerState) (channelName : String) (d : Nat) : BrokerState :=
  let m := createMessage s channelName d none
  let s1 := subjectNext s m
  let s2 := { s1 with nextMsgId := s.nextMsgId + 1, clock := s.clock + 1 }
  adapterFanOut m channelName s.clock s.adapters s2

/-- A sequence of publishes on one channel. -/
def publishList (s : BrokerState) (channelName : String) (ds : List Nat) : BrokerState :=
  ds.foldl (fun acc d => publish acc channelName d) s

/-- part_005 `registerAdapter`: store the adapter under a fresh id, attempt
`connect()` (a rejection is caught and reported on the error stream with no
channel name and no message), then subscribe to the adapter's inbound
message stream, forwarding onto the central Subject. -/
def registerAdapter (s : BrokerState) (adapter : Adapter) : Nat × BrokerState :=
  let adapterId := s.nextAdapterId
  let s1 := { s with
    adapters := s.adapters ++ [(adapterId, adapter)],
    nextAdapterId := s.nextAdapterId + 1 }
  let s2 :=
    match adapter.connectOutcome with
    | some e => { s1 with errors := s1.errors ++ [(⟨adapterId, none, none, e, s.clock⟩ : AdapterError)] }
    | none => s1
  (adapterId, { s2 with inboundSubs := s2.inboundSubs ++ [adapterId] })

/-- An adapter's inbound stream emitting a message: if the broker still
holds the forwarding subscription for that adapter, the message is pushed
onto the central Subject. -/
def inboundEmit (s : BrokerState) (adapterId : Nat) (m : Msg) : BrokerState :=
  if s.inboundSubs.contains adapterId then subjectNext s m else s

/-- part_005 `dispose`: release the keepalive when present (a no-op for
delivery, since shareReplay with a plain buffer size stays connected) and
remove the model from the registry. -/
def dispose (s : BrokerState) (channelName : String) : BrokerState :=
  { s with channels := eraseAssoc channelName s.channels }

/-! ### Second adapter-bridge revision (src/main/core/messagebroker.ts)

This revision keeps a per-adapter cache of raw inbound streams
(`adapterStreams`) and a per-channel cache of filtered streams
(`adapterObservables`); `createChannelImpl` merges the cached filtered
streams into the channel observable via `getOrCreateAdapterObservables`.
The embedding tracks, in `streamCalls`, every invocation of an adapter's
`getMessageStream`. -/

namespace V2

/-- Channel model of the second revision, reduced to the fields that drive
`create`'s branching: handle identity, the stored config and whether a
keepalive subscription is present. -/
structure ChannelModelB where
  handleId : Nat
  config : Option MB.IMessageBrokerConfig
  subscription : Bool
deriving DecidableEq, Repr

/-- Broker state of the second adapter-bridge revision: adapters are listed
by id, `adapterStreams` caches which adapters' raw streams have been
fetched, `adapterObservables` caches the per-channel filtered streams, and
`streamCalls` logs each `getMessageStream` invocation. -/
structure StateB where
  channels : List (String × ChannelModelB)
  adapters : List Nat
  adapterStreams : List Nat
  adapterObservables : List (String × List Nat)
  streamCalls : List Nat
  nextAdapterId : Nat
  nextHandleId : Nat
deriving DecidableEq, Repr

/-- The empty broker of the second revision. -/
def initB : StateB := ⟨[], [], [], [], [], 0, 0⟩

/-- One iteration of the `getOrCreateAdapterObservables` loop, threading
(per-channel filtered cache, raw-stream cache, `getMessageStream` log): when
the per-channel filtered stream for this adapter is missing, the raw stream
is fetched (invoking `getMessageStream` only when not already cached) and
the filtered stream is derived and cached. -/
def adapterObsStep (acc : List Nat × List Nat × List Nat) (adapterId : Nat) :
    List Nat × List Nat × List Nat :=
  if acc.1.contains adapterId then acc
  else
    let streams := acc.2.1
    let calls := acc.2.2
    let next :=
      if streams.contains adapterId then (streams, calls)
      else (streams ++ [adapterId], calls ++ [adapterId])
    (acc.1 ++ [adapterId], next.1, next.2)

/-- messagebroker.ts `getOrCreateAdapterObservables`: for every registered
adapter, reuse the cached per-channel filtered stream when present;
otherwise fetch the adapter's raw stream (invoking `getMessageStream` only
when it is not already cached) and derive and cache the filtered stream. -/
def getOrCreateAdapterObservables (s : StateB) (channelName : String) : StateB :=
  let channelObs := (MB.lookupAssoc channelName s.adapterObservables).getD []
  let res := s.adapters.foldl adapterObsStep (channelObs, s.adapterStreams, s.streamCalls)
  { s with
    adapterObservables := MB.setAssoc channelName res.1 s.adapterObservables,
    adapterStreams := res.2.1,
    streamCalls := res.2.2 }

/-- messagebroker.ts `createChannelImpl` (second revision), reduced to its
registry effects: resolve the adapter observables for the channel, then
store a fresh model whose keepalive is present exactly when the config
carries a truthy `replayCacheSize`. -/
def createChannelImplB (s : StateB) (channelName : String)
    (config : Option MB.IMessageBrokerConfig) : StateB :=
  let s1 := getOrCreateAdapterObservables s channelName
  { s1 with
    channels := MB.setAssoc channelName
      ⟨s1.nextHandleId, config, (MB.truthyCacheSize config).isSome⟩ s1.channels,
    nextHandleId := s1.nextHandleId + 1 }

/-- messagebroker.ts `create` (second revision) as a state transition: the
configuration-conflict branch throws before mutating, so it leaves the state
unchanged, and returning an existing handle mutates nothing. -/
def createB (s : StateB) (channelName : String)
    (config : Option MB.IMessageBrokerConfig) : StateB :=
  match MB.lookupAssoc channelName s.channels with
  | none => createChannelImplB s channelName config
  | some existing =>
    match config with
    | none => s
    | some cfg =>
      if existing.subscription && !(MB.isCacheSizeEqual existing.config (some cfg)) then s
      else createChannelImplB s channelName (some cfg)

/-- messagebroker.ts `registerAdapter` (second revision): only stores the
adapter under a fresh id; no stream is fetched at registration time. -/
def registerAdapterB (s : StateB) : StateB :=
  { s with
    adapters := s.adapters ++ [s.nextAdapterId],
    nextAdapterId := s.nextAdapterId + 1 }

/-- messagebroker.ts `dispose` (second revision): removes the channel model
and its cached per-channel adapter observables. -/
def disposeB (s : StateB) (channelName : String) : StateB :=
  { s with
    channels := MB.eraseAssoc channelName s.channels,
    adapterObservables := MB.eraseAssoc channelName s.adapterObservables }

/-- The broker calls exercised by the stream-reuse invariant. -/
inductive OpB where
  | registerOp
  | createOp (channelName : String) (config : Option MB.IMessageBrokerConfig)
  | disposeOp (channelName : String)

/-- One broker call of the second revision. -/
def stepB (s : StateB) : OpB → StateB
  | .registerOp => registerAdapterB s
  | .createOp channelName config => createB s channelName config
  | .disposeOp channelName => disposeB s channelName

/-- A sequence of broker calls of the second revision, from the empty
broker. -/
def runB (ops : List OpB) : StateB :=
  ops.foldl stepB initB

/-- The stream-reuse invariant: the `getMessageStream` log holds no
duplicates and every logged adapter still has its raw stream cached. -/
def InvB (s : StateB) : Prop :=
  s.streamCalls.Nodup ∧ ∀ id ∈ s.streamCalls, id ∈ s.adapterStreams

end V2

/-! ### Scope-tree revision (src/main/core/messagebroker.ts, first revision)

Broker instances form a tree: `createScope(name)` returns the existing child
of that name or pushes a fresh one, `publish` on a channel republishes into
every child (`scope.instance.create(channelName).publish(data)`) and then
onto the local Subject, and `dispose(channelName)` recurses into every child
before releasing the local keepalive and registry entry. Scope messages are
modelled as channel name plus payload. -/

namespace Scoped

/-- A message flowing through a scope-tree broker. -/
structure SMsg where
  channelName : String
  data : Nat
deriving DecidableEq, Repr

/-- A shareReplay node of a scope instance; `keepAliveOpen` records whether
the keepalive subscription taken at creation is still open (dispose closes
it; delivery is unaffected because shareReplay stays connected). -/
structure SReplayNode where
  name : String
  cap : Nat
  buf : List SMsg
  keepAliveOpen : Bool
deriving DecidableEq, Repr

/-- A channel model of a scope instance. -/
structure SChannelModel where
  obs : MB.Target
  hid : Nat
  config : Option MB.IMessageBrokerConfig
  subscription : Option Nat
deriving DecidableEq, Repr

/-- A subscriber attached to one scope instance's streams. -/
structure SSubscriber where
  target : MB.Target
  received : List SMsg
deriving DecidableEq, Repr

mutual
/-- A broker instance of the scope-tree revision: its channel registry,
replay nodes, subscribers, named children and handle counter. -/
inductive ScopeTree where
  | node (channels : List (String × SChannelModel)) (replays : List SReplayNode)
      (subs : List SSubscriber) (children : ScopeForest) (nextHandleId : Nat)

/-- The named children of a scope instance, in insertion order. -/
inductive ScopeForest where
  | nil : ScopeForest
  | cons (sname : String) (child : ScopeTree) (rest : ScopeForest) : ScopeForest
end

/-- The channel registry of a scope instance. -/
def channelsOf : ScopeTree → List (String × SChannelModel)
  | .node ch _ _ _ _ => ch

/-- The replay nodes of a scope instance. -/
def replaysOf : ScopeTree → List SReplayNode
  | .node _ r _ _ _ => r

/-- The subscribers of a scope instance. -/
def subsOf : ScopeTree → List SSubscriber
  | .node _ _ sb _ _ => sb

/-- The children of a scope instance. -/
def childrenOf : ScopeTree → ScopeForest
  | .node _ _ _ children _ => children

/-- A fresh scope instance, as built by `createScope`. -/
def emptyScope : ScopeTree := .node [] [] [] .nil 0

/-- Child lookup by scope name (`_children.find`). -/
def flookup (k : String) : ScopeForest → Option ScopeTree
  | .nil => none
  | .cons n c rest => if n == k then some c else flookup k rest

/-- Appending a child scope (`_children.push`). -/
def fsnoc : ScopeForest → String → ScopeTree → ScopeForest
  | .nil, n, c => .cons n c .nil
  | .cons m x rest, n, c => .cons m x (fsnoc rest n c)

/-- scope-tree `createScope`: return the tree unchanged when a child with
that name exists, otherwise push a fresh child instance. -/
def screateScope : ScopeTree → String → ScopeTree
  | .node ch r sb children nH, sname =>
    if (flookup sname children).isSome then .node ch r sb children nH
    else .node ch r sb (fsnoc children sname emptyScope) nH

/-- Delivery test against a scope instance's replay nodes. -/
def sDeliversTo (replays : List SReplayNode) (t : MB.Target) (name : String) : Bool :=
  match t with
  | .filtered n => n == name
  | .replay i =>
    match replays[i]? with
    | some nd => nd.name == name
    | none => false

/-- Replay-node update on a local Subject push. -/
def replayUpd (name : String) (d : Nat) (r : List SReplayNode) : List SReplayNode :=
  r.map (fun nd =>
    if nd.name == name then
      { nd with buf := MB.takeLast nd.cap (nd.buf ++ [⟨name, d⟩]) }
    else nd)

/-- Subscriber update on a local Subject push. -/
def subsUpd (r : List SReplayNode) (name : String) (d : Nat)
    (sb : List SSubscriber) : List SSubscriber :=
  sb.map (fun su =>
    if sDeliversTo r su.target name then
      { su with received := su.received ++ [⟨name, d⟩] }
    else su)

/-- The local effect of `create(channelName)` with no config: reuse the
existing model or store a fresh uncached one. -/
def sGetOrCreateLocal (ch : List (String × SChannelModel)) (nH : Nat) (name : String) :
    List (String × SChannelModel) × Nat :=
  match MB.lookupAssoc name ch with
  | some _ => (ch, nH)
  | none => (MB.setAssoc name ⟨.filtered name, nH, none, none⟩ ch, nH + 1)

mutual
/-- scope-tree `create(channelName).publish(data)`: get-or-create the local
channel, then run the publish function, which first republishes into every
child via that child's `create(channelName).publish(data)` and then pushes
the message onto the local Subject. -/
def screatePublish (name : String) (d : Nat) : ScopeTree → ScopeTree
  | .node ch r sb children nH =>
    let gc := sGetOrCreateLocal ch nH name
    .node gc.1 (replayUpd name d r) (subsUpd r name d sb)
      (screatePublishF name d children) gc.2

/-- The `_children.forEach` loop of the scope-tree publish function. -/
def screatePublishF (name : String) (d : Nat) : ScopeForest → ScopeForest
  | .nil => .nil
  | .cons n c rest => .cons n (screatePublish name d c) (screatePublishF name d rest)
end

/-- Subscribing to `get(channelName)` on one scope instance: deferred
resolution against the local registry, implicitly creating an uncached
channel when none exists. -/
def ssubscribeLocal : ScopeTree → String → ScopeTree
  | .node ch r sb children nH, name =>
    match MB.lookupAssoc name ch with
    | some m =>
      let initial : List SMsg :=
        match m.obs with
        | .replay i =>
          match r[i]? with
          | some nd => nd.buf
          | none => []
        | .filtered _ => []
      .node ch r (sb ++ [⟨m.obs, initial⟩]) children nH
    | none =>
      .node (MB.setAssoc name ⟨.filtered name, nH, none, none⟩ ch) r
        (sb ++ [(⟨.filtered name, []⟩ : SSubscriber)]) children (nH + 1)

/-- Closing the keepalive subscription at index `idx`. -/
def setDead (idx : Nat) : List SReplayNode → List SReplayNode
  | [] => []
  | nd :: rest =>
    match idx with
    | 0 => { nd with keepAliveOpen := false } :: rest
    | i + 1 => nd :: setDead i rest

/-- The local keepalive release performed by scope-tree `dispose`: when the
channel model is configured with caching, its subscription is closed. -/
def disposeReplays (name : String) (ch : List (String × SChannelModel))
    (r : List SReplayNode) : List SReplayNode :=
  match MB.lookupAssoc name ch with
  | some m =>
    match m.subscription with
    | some idx => setDead idx r
    | none => r
  | none => r

mutual
/-- scope-tree `dispose(channelName)`: recurse into every child, then close
the local keepalive (when cached) and delete the local registry entry. -/
def sdispose (name : String) : ScopeTree → ScopeTree
  | .node ch r sb children nH =>
    .node (MB.eraseAssoc name ch) (disposeReplays name ch r) sb
      (sdisposeF name children) nH

/-- The `_children.forEach` loop of scope-tree `dispose`. -/
def sdisposeF (name : String) : ScopeForest → ScopeForest
  | .nil => .nil
  | .cons n c rest => .cons n (sdispose name c) (sdisposeF name rest)
end

mutual
/-- The channel name is absent from this instance's registry and from every
descendant's registry. -/
def channelAbsent (name : String) : ScopeTree → Bool
  | .node ch _ _ children _ => (MB.lookupAssoc name ch).isNone && channelAbsentF name children

/-- `channelAbsent` over a forest of children. -/
def channelAbsentF (name : String) : ScopeForest → Bool
  | .nil => true
  | .cons _ c rest => channelAbsent name c && channelAbsentF name rest
end

/-- The descendant instance reached by following child names along `path`. -/
def nodeAt : ScopeTree → List String → Option ScopeTree
  | t, [] => some t
  | t, k :: p =>
    match flookup k (childrenOf t) with
    | some c => nodeAt c p
    | none => none

/-- Applying an operation to the first child named `k`. -/
def updateAtF (k : String) (f : ScopeTree → ScopeTree) : ScopeForest → ScopeForest
  | .nil => .nil
  | .cons n c rest =>
    if n == k then .cons n (f c) rest else .cons n c (updateAtF k f rest)

/-- Applying a broker call to the descendant instance at `path`. -/
def updateAt : ScopeTree → List String → (ScopeTree → ScopeTree) → ScopeTree
  | t, [], f => f t
  | .node ch r sb children nH, k :: p, f =>
    .node ch r sb (updateAtF k (fun c => updateAt c p f) children) nH

end Scoped

/-- Whether an Except result is a normal return, i.e. the call did not
throw. -/
def exceptIsOk {ε α : Type} : Except ε α → Bool
  | .ok _ => true
  | .error _ => false

/-- A broker holding one channel named chat, cached with
`replayCacheSize = 2`. -/
def cachedExample : BrokerState :=
  (create initialState "chat" (some ⟨some 2⟩)).2

/-- The channel model stored for chat in `cachedExample`. -/
def cachedModelExample : ChannelModel :=
  ⟨.replay 0, ⟨0, "chat"⟩, some ⟨some 2⟩, some 0⟩

/-- A broker holding one subscriber on the channel news (obtained by
subscribing to `get` on the empty broker). -/
def subscribedExample : BrokerState :=
  subscribe initialState "news"

/-- The messages created by a run of consecutive publishes on one channel,
starting from message-id counter `i` and clock `c`: each publish advances
both by one. -/
def msgsFrom (i c : Nat) (channelName : String) : List Nat → List Msg
  | [] => []
  | d :: ds => ⟨channelName, d, none, c, i⟩ :: msgsFrom (i + 1) (c + 1) channelName ds

/-- One always-rejecting adapter. -/
def rejectingAdapter : Adapter := ⟨fun _ => some 9, none⟩

/-- One always-resolving adapter. -/
def resolvingAdapter : Adapter := ⟨fun _ => none, none⟩

/-- A broker with one subscriber on news and two registered adapters, the
first rejecting every send and the second resolving every send. -/
def twoAdapterExample : BrokerState :=
  (registerAdapter (registerAdapter subscribedExample rejectingAdapter).2 resolvingAdapter).2

/-- An adapter whose connect() always rejects and whose sends resolve. -/
def badConnectAdapter : Adapter := ⟨fun _ => none, some 4⟩

/-- The scope-tree run of the test scenario of
src/spec/core/messagebroker-adapter.spec.ts that expects child-to-parent
bubbling: create a child scope, subscribe on the parent's channel, then
`child.create(channel).publish(42)`. -/
def scopeScenario : Scoped.ScopeTree :=
  Scoped.updateAt
    (Scoped.ssubscribeLocal (Scoped.screateScope Scoped.emptyScope "child") "channel")
    ["child"]
    (fun c => Scoped.screatePublish "channel" 42 c)

/-- A scope instance holding a cached channel chat with an open keepalive
subscription on its replay node. -/
def scopeCachedChild : Scoped.ScopeTree :=
  .node [("chat", ⟨.replay 0, 0, some ⟨some 2⟩, some 0⟩)] [⟨"chat", 2, [], true⟩] [] .nil 1

/-- A root scope with `scopeCachedChild` as its only child. -/
def scopeCachedParent : Scoped.ScopeTree :=
  .node [] [] [] (.cons "kid" scopeCachedChild .nil) 0

end MB

deriving instance DecidableEq for Except

/-! ## Lemmas about the registry primitives -/

namespace MB

theorem lookup_setAssoc_self {α : Type} (k : String) (v : α) (l : List (String × α)) :
    lookupAssoc k (setAssoc k v l) = some v := by
  simp [lookupAssoc, setAssoc, List.find?]

theorem lookup_eraseAssoc_self {α : Type} (k : String) (l : List (String × α)) :
    lookupAssoc k (eraseAssoc k l) = none := by
  induction l with
  | nil => rfl
  | cons p rest ih =>
    by_cases h : p.1 = k
    · simp only [lookupAssoc, eraseAssoc] at ih ⊢
      simp [h, ih]
    · simp only [lookupAssoc, eraseAssoc] at ih ⊢
      simp [List.find?, h, ih]

theorem eraseAssoc_of_lookup_none {α : Type} (k : String) (l : List (String × α))
    (h : lookupAssoc k l = none) : eraseAssoc k l = l := by
  rw [lookupAssoc, Option.map_eq_none', List.find?_eq_none] at h
  rw [eraseAssoc, List.filter_eq_self]
  intro a ha
  simpa using h a ha

/-! ## C2, C10, C7: the create/config contract -/

/-- C2: if a channel name is registered with a caching config, calling
`create` with the same name and a config whose `replayCacheSize` differs
throws the conflict error naming the channel, leaving the broker (hence the
registry entry) unchanged, while calling `create` with the identical
`replayCacheSize` never throws. -/
theorem create_conflict_on_different_cache_size
    (s : BrokerState) (channelName : String) (m : ChannelModel)
    (N : Nat) (cfg2 : IMessageBrokerConfig)
    (hlk : lookupAssoc channelName s.channels = some m)
    (hcfg : m.config = some ⟨some N⟩)
    (hsub : m.subscription.isSome = true)
    (hdiff : cfg2.replayCacheSize ≠ some N) :
    (create s channelName (some cfg2)).1 = Except.error (conflictMessage channelName)
      ∧ (create s channelName (some cfg2)).2 = s
      ∧ exceptIsOk (create s channelName (some ⟨some N⟩)).1 = true := by
  have hcmp : ((some N : Option Nat) == cfg2.replayCacheSize) = false := by
    rw [beq_eq_false_iff_ne]
    exact fun h => hdiff h.symm
  refine ⟨?_, ?_, ?_⟩
  · simp [create, hlk, isChannelConfiguredWithCaching, hsub, isCacheSizeEqual, hcfg, hcmp]
  · simp [create, hlk, isChannelConfiguredWithCaching, hsub, isCacheSizeEqual, hcfg, hcmp]
  · simp [create, hlk, isChannelConfiguredWithCaching, hsub, isCacheSizeEqual, hcfg,
      createChannelImpl, exceptIsOk]

/-- Witness for C2 on a concrete broker: chat is cached at size 2 and
re-creating it at size 3 conflicts, while size 2 succeeds. -/
theorem create_conflict_on_different_cache_size_witness :
    (lookupAssoc "chat" cachedExample.channels = some cachedModelExample
        ∧ cachedModelExample.config = some ⟨some 2⟩
        ∧ cachedModelExample.subscription.isSome = true
        ∧ (⟨some 3⟩ : IMessageBrokerConfig).replayCacheSize ≠ some 2)
      ∧ ((create cachedExample "chat" (some ⟨some 3⟩)).1
            = Except.error (conflictMessage "chat")
        ∧ (create cachedExample "chat" (some ⟨some 3⟩)).2 = cachedExample
        ∧ exceptIsOk (create cachedExample "chat" (some ⟨some 2⟩)).1 = true) :=
  ⟨⟨by decide, by decide, by decide, by decide⟩,
    create_conflict_on_different_cache_size cachedExample "chat" cachedModelExample 2 ⟨some 3⟩
      (by decide) (by decide) (by decide) (by decide)⟩

/-- C10: on a channel currently cached with size N, a present-but-empty
config object conflicts (it is compared as an undefined cache size), while
omitting the config argument returns the existing handle without throwing
and without touching the broker. -/
theorem create_empty_config_conflicts
    (s : BrokerState) (channelName : String) (m : ChannelModel) (N : Nat)
    (hlk : lookupAssoc channelName s.channels = some m)
    (hcfg : m.config = some ⟨some N⟩)
    (hsub : m.subscription.isSome = true)
    (_hN : 1 ≤ N) :
    (create s channelName (some ⟨none⟩)).1 = Except.error (conflictMessage channelName)
      ∧ (create s channelName (some ⟨none⟩)).2 = s
      ∧ (create s channelName none).1 = Except.ok m.channel
      ∧ (create s channelName none).2 = s := by
  refine ⟨?_, ?_, ?_, ?_⟩
  · simp [create, hlk, isChannelConfiguredWithCaching, hsub, isCacheSizeEqual, hcfg]
  · simp [create, hlk, isChannelConfiguredWithCaching, hsub, isCacheSizeEqual, hcfg]
  · simp [create, hlk]
  · simp [create, hlk]

/-- Witness for C10 on a concrete broker: chat cached at size 2, then
created once with an empty config object and once with no config at all. -/
theorem create_empty_config_conflicts_witness :
    (lookupAssoc "chat" cachedExample.channels = some cachedModelExample
        ∧ cachedModelExample.config = some ⟨some 2⟩
        ∧ cachedModelExample.subscription.isSome = true
        ∧ 1 ≤ 2)
      ∧ ((create cachedExample "chat" (some ⟨none⟩)).1
            = Except.error (conflictMessage "chat")
        ∧ (create cachedExample "chat" (some ⟨none⟩)).2 = cachedExample
        ∧ (create cachedExample "chat" none).1 = Except.ok cachedModelExample.channel
        ∧ (create cachedExample "chat" none).2 = cachedExample) :=
  ⟨⟨by decide, by decide, by decide, by decide⟩,
    create_empty_config_conflicts cachedExample "chat" cachedModelExample 2
      (by decide) (by decide) (by decide) (by decide)⟩

/-- C7 counterexample: creating chat with `replayCacheSize = 1` and then
creating it again with the identical config does NOT return the stored
handle; `createChannelImpl` runs again and returns a fresh handle object. -/
theorem create_same_config_returns_existing_cex :
    (create initialState "chat" (some ⟨some 1⟩)).1 = Except.ok ⟨0, "chat"⟩
      ∧ (create (create initialState "chat" (some ⟨some 1⟩)).2 "chat" (some ⟨some 1⟩)).1
          = Except.ok ⟨1, "chat"⟩
      ∧ (⟨1, "chat"⟩ : ChannelHandle) ≠ ⟨0, "chat"⟩ := by
  refine ⟨by decide, by decide, by decide⟩

/-- C7 as amended: after a channel is created with `replayCacheSize = N`, a
subsequent `create` with the config omitted returns the very handle stored
in the registry and leaves the broker unchanged, whereas a subsequent
`create` supplying the identical `replayCacheSize = N` does not throw but
rebuilds the channel, returning and storing a fresh handle distinct from the
stored one. -/
theorem create_same_size_rebuilds_fresh_handle
    (s : BrokerState) (channelName : String) (m : ChannelModel) (N : Nat)
    (hlk : lookupAssoc channelName s.channels = some m)
    (hcfg : m.config = some ⟨some N⟩)
    (hsub : m.subscription.isSome = true)
    (hN : 1 ≤ N)
    (hfresh : m.channel.hid < s.nextHandleId) :
    ((create s channelName none).1 = Except.ok m.channel
        ∧ (create s channelName none).2 = s)
      ∧ (create s channelName (some ⟨some N⟩)).1 = Except.ok ⟨s.nextHandleId, channelName⟩
      ∧ (⟨s.nextHandleId, channelName⟩ : ChannelHandle) ≠ m.channel
      ∧ (lookupAssoc channelName ((create s channelName (some ⟨some N⟩)).2).channels).map
          (fun mm => mm.channel) = some ⟨s.nextHandleId, channelName⟩ := by
  have hN0 : ¬ N = 0 := by omega
  refine ⟨⟨by simp [create, hlk], by simp [create, hlk]⟩, ?_, ?_, ?_⟩
  · simp [create, hlk, isChannelConfiguredWithCaching, hsub, isCacheSizeEqual, hcfg,
      createChannelImpl, truthyCacheSize, hN0]
  · intro h
    have : s.nextHandleId = m.channel.hid := congrArg ChannelHandle.hid h
    omega
  · simp [create, hlk, isChannelConfiguredWithCaching, hsub, isCacheSizeEqual, hcfg,
      createChannelImpl, truthyCacheSize, hN0, lookup_setAssoc_self]

/-- Witness for the amended C7 on a concrete broker. -/
theorem create_same_size_rebuilds_fresh_handle_witness :
    (lookupAssoc "chat" cachedExample.channels = some cachedModelExample
        ∧ cachedModelExample.config = some ⟨some 2⟩
        ∧ cachedModelExample.subscription.isSome = true
        ∧ 1 ≤ 2
        ∧ cachedModelExample.channel.hid < cachedExample.nextHandleId)
      ∧ (((create cachedExample "chat" none).1 = Except.ok cachedModelExample.channel
          ∧ (create cachedExample "chat" none).2 = cachedExample)
        ∧ (create cachedExample "chat" (some ⟨some 2⟩)).1
            = Except.ok ⟨cachedExample.nextHandleId, "chat"⟩
        ∧ (⟨cachedExample.nextHandleId, "chat"⟩ : ChannelHandle) ≠ cachedModelExample.channel
        ∧ (lookupAssoc "chat" ((create cachedExample "chat" (some ⟨some 2⟩)).2).channels).map
            (fun mm => mm.channel) = some ⟨cachedExample.nextHandleId, "chat"⟩) :=
  ⟨⟨by decide, by decide, by decide, by decide, by decide⟩,
    create_same_size_rebuilds_fresh_handle cachedExample "chat" cachedModelExample 2
      (by decide) (by decide) (by decide) (by decide) (by decide)⟩

end MB

/-! ## Lemmas about publish and the adapter fan-out -/

namespace MB

theorem adapterFanOut_eq (m : Msg) (c : String) (now : Nat)
    (as : List (Nat × Adapter)) (acc : BrokerState) :
    adapterFanOut m c now as acc =
      { acc with
        sendLog := acc.sendLog ++ as.map (fun p => (p.1, m)),
        errors := acc.errors ++ as.filterMap
          (fun p => (p.2.sendOutcome m).map
            (fun e => (⟨p.1, some c, some m, e, now⟩ : AdapterError))) } := by
  induction as generalizing acc with
  | nil => simp [adapterFanOut]
  | cons p rest ih =>
    rw [show adapterFanOut m c now (p :: rest) acc
        = adapterFanOut m c now rest (adapterSendStep m c now acc p) from rfl]
    rw [ih]
    cases hp : p.2.sendOutcome m with
    | none => simp [adapterSendStep, hp, List.filterMap_cons]
    | some e => simp [adapterSendStep, hp, List.filterMap_cons]

theorem publish_eq (s : BrokerState) (channelName : String) (d : Nat) :
    publish s channelName d =
      { subjectNext s (createMessage s channelName d none) with
        nextMsgId := s.nextMsgId + 1,
        clock := s.clock + 1,
        sendLog := s.sendLog ++ s.adapters.map (fun p => (p.1, createMessage s channelName d none)),
        errors := s.errors ++ s.adapters.filterMap
          (fun p => (p.2.sendOutcome (createMessage s channelName d none)).map
            (fun e => (⟨p.1, some channelName, some (createMessage s channelName d none), e,
              s.clock⟩ : AdapterError))) } := by
  simp [publish, adapterFanOut_eq, subjectNext]

theorem subjectNext_subs_get (s : BrokerState) (m : Msg) (j : Nat) (su : Subscriber)
    (h : s.subs[j]? = some su) :
    (subjectNext s m).subs[j]? =
      some (if deliversTo s.replays su.target m.channelName then
        { su with received := su.received ++ [m] } else su) := by
  simp [subjectNext, List.getElem?_map, h]

theorem publish_subs_get (s : BrokerState) (channelName : String) (d : Nat) (j : Nat)
    (su : Subscriber) (h : s.subs[j]? = some su) :
    (publish s channelName d).subs[j]? =
      some (if deliversTo s.replays su.target channelName then
        { su with received := su.received ++ [createMessage s channelName d none] } else su) := by
  rw [publish_eq]
  simpa using subjectNext_subs_get s (createMessage s channelName d none) j su h

theorem publish_channels (s : BrokerState) (channelName : String) (d : Nat) :
    (publish s channelName d).channels = s.channels := by
  rw [publish_eq]; rfl

theorem publish_subs_length (s : BrokerState) (channelName : String) (d : Nat) :
    (publish s channelName d).subs.length = s.subs.length := by
  rw [publish_eq]; simp [subjectNext]

/-! ## C5: deferred resolution of get -/

/-- C5: for a never-created channel name, subscribing through the deferred
observable returned by `get` implicitly creates the channel with no cache
config; a later `create` with that name returns the existing model without
touching the broker; and a publish then delivers exactly one message to the
early subscriber. -/
theorem get_before_create_not_lossy (s : BrokerState) (channelName : String) (d : Nat)
    (hlk : lookupAssoc channelName s.channels = none) :
    ((lookupAssoc channelName (subscribe s channelName).channels).map
        (fun m => (m.obs, m.config, m.subscription))
        = some (.filtered channelName, none, none))
      ∧ (create (subscribe s channelName) channelName none).2 = subscribe s channelName
      ∧ exceptIsOk (create (subscribe s channelName) channelName none).1 = true
      ∧ ((publish (create (subscribe s channelName) channelName none).2 channelName d).subs[s.subs.length]?
          = some ⟨.filtered channelName,
              [⟨channelName, d, none, s.clock, s.nextMsgId⟩]⟩) := by
  have himpl : subscribe s channelName =
      { s with
        channels := setAssoc channelName
          ⟨.filtered channelName, ⟨s.nextHandleId, channelName⟩, none, none⟩ s.channels,
        nextHandleId := s.nextHandleId + 1,
        subs := s.subs ++ [(⟨.filtered channelName, []⟩ : Subscriber)] } := by
    simp [subscribe, hlk, createChannelImpl, truthyCacheSize]
  have hlk2 : lookupAssoc channelName (subscribe s channelName).channels =
      some ⟨.filtered channelName, ⟨s.nextHandleId, channelName⟩, none, none⟩ := by
    rw [himpl]; exact lookup_setAssoc_self _ _ _
  refine ⟨?_, ?_, ?_, ?_⟩
  · rw [hlk2]; rfl
  · simp [create, hlk2]
  · simp [create, hlk2, exceptIsOk]
  · have hcr : (create (subscribe s channelName) channelName none).2 = subscribe s channelName := by
      simp [create, hlk2]
    rw [hcr]
    have hsub : (subscribe s channelName).subs[s.subs.length]? =
        some (⟨.filtered channelName, []⟩ : Subscriber) := by
      rw [himpl]
      simp
    have := publish_subs_get (subscribe s channelName) channelName d s.subs.length
      (⟨.filtered channelName, []⟩ : Subscriber) hsub
    rw [this]
    have hclock : (subscribe s channelName).clock = s.clock := by rw [himpl]
    have hmid : (subscribe s channelName).nextMsgId = s.nextMsgId := by rw [himpl]
    simp [deliversTo, createMessage, hclock, hmid]

/-- Witness for C5 on the empty broker and channel news. -/
theorem get_before_create_not_lossy_witness :
    (lookupAssoc "news" initialState.channels = none)
      ∧ (((lookupAssoc "news" (subscribe initialState "news").channels).map
            (fun m => (m.obs, m.config, m.subscription))
            = some (.filtered "news", none, none))
        ∧ (create (subscribe initialState "news") "news" none).2 = subscribe initialState "news"
        ∧ exceptIsOk (create (subscribe initialState "news") "news" none).1 = true
        ∧ ((publish (create (subscribe initialState "news") "news" none).2 "news"
              5).subs[initialState.subs.length]?
            = some ⟨.filtered "news", [⟨"news", 5, none, 0, 0⟩]⟩)) :=
  ⟨by decide,
    get_before_create_not_lossy initialState "news" 5 (by decide)⟩

end MB

/-! ## C4: adapter fan-out on publish -/

namespace MB

/-- C4: a publish with N registered adapters invokes `sendMessage` exactly
once per adapter, always with the one message created for this publish;
every rejected send yields exactly one error-stream record carrying the
adapter id, channel name, message, underlying error and a timestamp;
delivery to local subscribers does not depend on the adapter registry at
all (so failures cannot suppress it); and a subscriber on the channel
receives the message no matter how many sends reject. The publish function
is total, so the call itself never throws. -/
theorem publish_fanout_and_isolation (s : BrokerState) (channelName : String) (d : Nat) :
    (publish s channelName d).sendLog
        = s.sendLog ++ s.adapters.map (fun p => (p.1, createMessage s channelName d none))
      ∧ (publish s channelName d).errors
          = s.errors ++ s.adapters.filterMap
              (fun p => (p.2.sendOutcome (createMessage s channelName d none)).map
                (fun e => (⟨p.1, some channelName, some (createMessage s channelName d none), e,
                  s.clock⟩ : AdapterError)))
      ∧ (∀ adapters2 : List (Nat × Adapter),
          (publish { s with adapters := adapters2 } channelName d).subs
            = (publish s channelName d).subs)
      ∧ (∀ (j : Nat) (su : Subscriber), s.subs[j]? = some su →
          su.target = Target.filtered channelName →
          (publish s channelName d).subs[j]?
            = some ⟨su.target, su.received ++ [createMessage s channelName d none]⟩) := by
  refine ⟨?_, ?_, ?_, ?_⟩
  · rw [publish_eq]
  · rw [publish_eq]
  · intro adapters2
    rw [publish_eq, publish_eq]
    rfl
  · intro j su hj htar
    rw [publish_subs_get s channelName d j su hj]
    simp [htar, deliversTo]

/-- Witness for C4 on a concrete broker with a rejecting and a resolving
adapter: both sends are logged with the one published message, exactly the
rejecting adapter produces an error record, and the subscriber receives the
message. -/
theorem publish_fanout_and_isolation_witness :
    ((publish twoAdapterExample "news" 7).sendLog
        = twoAdapterExample.sendLog ++ twoAdapterExample.adapters.map
            (fun p => (p.1, createMessage twoAdapterExample "news" 7 none))
      ∧ (publish twoAdapterExample "news" 7).errors
          = twoAdapterExample.errors ++ twoAdapterExample.adapters.filterMap
              (fun p => (p.2.sendOutcome (createMessage twoAdapterExample "news" 7 none)).map
                (fun e => (⟨p.1, some "news", some (createMessage twoAdapterExample "news" 7 none),
                  e, twoAdapterExample.clock⟩ : AdapterError)))
      ∧ (∀ adapters2 : List (Nat × Adapter),
          (publish { twoAdapterExample with adapters := adapters2 } "news" 7).subs
            = (publish twoAdapterExample "news" 7).subs)
      ∧ (∀ (j : Nat) (su : Subscriber), twoAdapterExample.subs[j]? = some su →
          su.target = Target.filtered "news" →
          (publish twoAdapterExample "news" 7).subs[j]?
            = some ⟨su.target, su.received ++ [createMessage twoAdapterExample "news" 7 none]⟩))
    ∧ twoAdapterExample.subs[0]? = some ⟨Target.filtered "news", []⟩
    ∧ (publish twoAdapterExample "news" 7).errors.length = 1
    ∧ (publish twoAdapterExample "news" 7).sendLog.length = 2 := by
  refine ⟨publish_fanout_and_isolation twoAdapterExample "news" 7, by rfl, by rfl, by rfl⟩

end MB

/-! ## C8: adapter registration with a failing connect -/

namespace MB

/-- C8: when an adapter's `connect()` rejects, `registerAdapter` still
returns the fresh adapter id (the rejection is caught, never rethrown), the
failure is reported on the error stream as a record with the adapter id,
error and timestamp but no channel name and no message, the adapter is in
the registered-adapters map afterwards, its inbound stream is subscribed,
and an inbound message emitted by the adapter afterwards is forwarded to
local subscribers of its channel. -/
theorem registerAdapter_connect_failure (s : BrokerState) (adapter : Adapter) (e : Nat)
    (hconn : adapter.connectOutcome = some e) :
    (registerAdapter s adapter).1 = s.nextAdapterId
      ∧ (registerAdapter s adapter).2.adapters.map Prod.fst
          = s.adapters.map Prod.fst ++ [s.nextAdapterId]
      ∧ (registerAdapter s adapter).2.errors
          = s.errors ++ [⟨s.nextAdapterId, none, none, e, s.clock⟩]
      ∧ (registerAdapter s adapter).2.inboundSubs = s.inboundSubs ++ [s.nextAdapterId]
      ∧ (∀ (m : Msg) (j : Nat) (su : Subscriber), s.subs[j]? = some su →
          su.target = Target.filtered m.channelName →
          (inboundEmit (registerAdapter s adapter).2 s.nextAdapterId m).subs[j]?
            = some ⟨su.target, su.received ++ [m]⟩) := by
  have hreg : registerAdapter s adapter =
      (s.nextAdapterId,
        { s with
          adapters := s.adapters ++ [(s.nextAdapterId, adapter)],
          nextAdapterId := s.nextAdapterId + 1,
          errors := s.errors ++ [(⟨s.nextAdapterId, none, none, e, s.clock⟩ : AdapterError)],
          inboundSubs := s.inboundSubs ++ [s.nextAdapterId] }) := by
    simp [registerAdapter, hconn]
  refine ⟨by rw [hreg], by rw [hreg]; simp, by rw [hreg], by rw [hreg], ?_⟩
  intro m j su hj htar
  rw [hreg]
  have hm : ((s.inboundSubs ++ [s.nextAdapterId]).contains s.nextAdapterId) = true := by
    simp
  simp only [inboundEmit, hm, if_true]
  have := subjectNext_subs_get
    { s with
      adapters := s.adapters ++ [(s.nextAdapterId, adapter)],
      nextAdapterId := s.nextAdapterId + 1,
      errors := s.errors ++ [(⟨s.nextAdapterId, none, none, e, s.clock⟩ : AdapterError)],
      inboundSubs := s.inboundSubs ++ [s.nextAdapterId] } m j su hj
  rw [this]
  simp [htar, deliversTo]

/-- Witness for C8 on a concrete broker with one subscriber on news: the
failing-connect adapter is registered, reported and still forwarding. -/
theorem registerAdapter_connect_failure_witness :
    (badConnectAdapter.connectOutcome = some 4)
      ∧ ((registerAdapter subscribedExample badConnectAdapter).1
            = subscribedExample.nextAdapterId
        ∧ (registerAdapter subscribedExample badConnectAdapter).2.adapters.map Prod.fst
            = subscribedExample.adapters.map Prod.fst ++ [subscribedExample.nextAdapterId]
        ∧ (registerAdapter subscribedExample badConnectAdapter).2.errors
            = subscribedExample.errors
              ++ [⟨subscribedExample.nextAdapterId, none, none, 4, subscribedExample.clock⟩]
        ∧ (registerAdapter subscribedExample badConnectAdapter).2.inboundSubs
            = subscribedExample.inboundSubs ++ [subscribedExample.nextAdapterId]
        ∧ (∀ (m : Msg) (j : Nat) (su : Subscriber), subscribedExample.subs[j]? = some su →
            su.target = Target.filtered m.channelName →
            (inboundEmit (registerAdapter subscribedExample badConnectAdapter).2
                subscribedExample.nextAdapterId m).subs[j]?
              = some ⟨su.target, su.received ++ [m]⟩))
      ∧ subscribedExample.subs[0]? = some ⟨Target.filtered "news", []⟩ :=
  ⟨by rfl,
    registerAdapter_connect_failure subscribedExample badConnectAdapter 4 (by rfl),
    by rfl⟩

end MB

/-! ## C6: at-most-once getMessageStream per adapter -/

namespace MB.V2

theorem adapterObsStep_inv (acc : List Nat × List Nat × List Nat) (adapterId : Nat)
    (h1 : acc.2.2.Nodup) (h2 : ∀ id ∈ acc.2.2, id ∈ acc.2.1) :
    (adapterObsStep acc adapterId).2.2.Nodup
      ∧ ∀ id ∈ (adapterObsStep acc adapterId).2.2, id ∈ (adapterObsStep acc adapterId).2.1 := by
  by_cases hc : adapterId ∈ acc.1
  · have hstep : adapterObsStep acc adapterId = acc := by simp [adapterObsStep, hc]
    rw [hstep]
    exact ⟨h1, h2⟩
  · by_cases hs : adapterId ∈ acc.2.1
    · have hstep : adapterObsStep acc adapterId = (acc.1 ++ [adapterId], acc.2.1, acc.2.2) := by
        simp [adapterObsStep, hc, hs]
      rw [hstep]
      exact ⟨h1, h2⟩
    · have hstep : adapterObsStep acc adapterId
          = (acc.1 ++ [adapterId], acc.2.1 ++ [adapterId], acc.2.2 ++ [adapterId]) := by
        simp [adapterObsStep, hc, hs]
      rw [hstep]
      have hnotin : adapterId ∉ acc.2.2 := fun hmem => hs (h2 _ hmem)
      refine ⟨?_, ?_⟩
      · simp [List.nodup_append, h1, hnotin]
      · intro id hid
        rcases List.mem_append.mp hid with h | h
        · exact List.mem_append.mpr (.inl (h2 _ h))
        · exact List.mem_append.mpr (.inr h)

theorem foldl_adapterObsStep_inv (adapters : List Nat)
    (acc : List Nat × List Nat × List Nat)
    (h1 : acc.2.2.Nodup) (h2 : ∀ id ∈ acc.2.2, id ∈ acc.2.1) :
    (adapters.foldl adapterObsStep acc).2.2.Nodup
      ∧ ∀ id ∈ (adapters.foldl adapterObsStep acc).2.2,
          id ∈ (adapters.foldl adapterObsStep acc).2.1 := by
  induction adapters generalizing acc with
  | nil => exact ⟨h1, h2⟩
  | cons a rest ih =>
    have := adapterObsStep_inv acc a h1 h2
    exact ih (adapterObsStep acc a) this.1 this.2

theorem getOrCreateAdapterObservables_inv (s : StateB) (channelName : String)
    (h : InvB s) : InvB (getOrCreateAdapterObservables s channelName) :=
  foldl_adapterObsStep_inv s.adapters _ h.1 h.2

theorem createChannelImplB_inv (s : StateB) (channelName : String)
    (config : Option MB.IMessageBrokerConfig) (h : InvB s) :
    InvB (createChannelImplB s channelName config) :=
  getOrCreateAdapterObservables_inv s channelName h

theorem stepB_inv (s : StateB) (op : OpB) (h : InvB s) : InvB (stepB s op) := by
  cases op with
  | registerOp => exact h
  | createOp channelName config =>
    simp only [stepB, createB]
    cases MB.lookupAssoc channelName s.channels with
    | none => exact createChannelImplB_inv s channelName config h
    | some existing =>
      cases config with
      | none => exact h
      | some cfg =>
        by_cases hif : existing.subscription && !(MB.isCacheSizeEqual existing.config (some cfg))
        · simpa [hif] using h
        · simpa [hif] using createChannelImplB_inv s channelName (some cfg) h
  | disposeOp channelName => exact h

theorem foldlB_inv (ops : List OpB) (s : StateB) (h : InvB s) : InvB (ops.foldl stepB s) := by
  induction ops generalizing s with
  | nil => exact h
  | cons op rest ih => exact ih _ (stepB_inv s op h)

theorem runB_inv (ops : List OpB) : InvB (runB ops) :=
  foldlB_inv ops initB ⟨List.nodup_nil, fun id h => absurd h (List.not_mem_nil id)⟩

/-- C6: across any sequence of adapter registrations, channel creations
(with any configs, including uncached-to-cached upgrades) and disposals, an
adapter's `getMessageStream` is invoked at most once: the raw stream and the
per-channel filtered streams are cached and reused instead of re-created. -/
theorem adapter_stream_fetched_at_most_once (ops : List OpB) (adapterId : Nat) :
    ((runB ops).streamCalls).count adapterId ≤ 1 :=
  (List.nodup_iff_count_le_one.mp (runB_inv ops).1) adapterId

end MB.V2

/-! ## C3: scope-tree publish does not bubble to the parent -/

namespace MB

/-- C3 (evaluation of the scope-tree code at the failing input): in the
scenario of the repository's own test (a parent with a subscriber on the
channel, a child scope with zero local observers, then
`child.create(channel).publish(42)`), the parent's subscriber receives
nothing: the scope-tree publish function forwards publishes down into every
child and delivers locally, and never forwards to the parent, regardless of
how many observers the local central stream has. The claim (and the
repository's test, which expects the parent to receive exactly one message)
is violated by this code. -/
theorem scope_publish_does_not_bubble_to_parent :
    Scoped.subsOf scopeScenario = [⟨Target.filtered "channel", []⟩]
      ∧ (Scoped.nodeAt scopeScenario ["child"]).map (fun c => (Scoped.subsOf c).length)
          = some 0
      ∧ (Scoped.nodeAt scopeScenario ["child"]).map
            (fun c => (lookupAssoc "channel" (Scoped.channelsOf c)).isSome)
          = some true := by
  refine ⟨by decide, by decide, by decide⟩

end MB

/-! ## C9: recursive dispose on the scope tree -/

namespace MB

mutual
theorem sdispose_absent (name : String) (t : Scoped.ScopeTree) :
    Scoped.channelAbsent name (Scoped.sdispose name t) = true := by
  cases t with
  | node ch r sb children nH =>
    simp only [Scoped.sdispose, Scoped.channelAbsent]
    rw [lookup_eraseAssoc_self]
    simpa using sdispose_absentF name children

theorem sdispose_absentF (name : String) (f : Scoped.ScopeForest) :
    Scoped.channelAbsentF name (Scoped.sdisposeF name f) = true := by
  cases f with
  | nil => rfl
  | cons n c rest =>
    simp only [Scoped.sdisposeF, Scoped.channelAbsentF]
    rw [sdispose_absent name c, sdispose_absentF name rest]
    rfl
end

mutual
theorem sdispose_noop (name : String) (t : Scoped.ScopeTree)
    (h : Scoped.channelAbsent name t = true) : Scoped.sdispose name t = t := by
  cases t with
  | node ch r sb children nH =>
    simp only [Scoped.channelAbsent, Bool.and_eq_true] at h
    have hlk : lookupAssoc name ch = none := by
      simpa [Option.isNone_iff_eq_none] using h.1
    simp only [Scoped.sdispose]
    rw [eraseAssoc_of_lookup_none name ch hlk,
      show Scoped.disposeReplays name ch r = r from by simp [Scoped.disposeReplays, hlk],
      sdispose_noopF name children h.2]

theorem sdispose_noopF (name : String) (f : Scoped.ScopeForest)
    (h : Scoped.channelAbsentF name f = true) : Scoped.sdisposeF name f = f := by
  cases f with
  | nil => rfl
  | cons n c rest =>
    simp only [Scoped.channelAbsentF, Bool.and_eq_true] at h
    simp only [Scoped.sdisposeF]
    rw [sdispose_noop name c h.1, sdispose_noopF name rest h.2]
end

theorem flookup_sdisposeF (name k : String) (f : Scoped.ScopeForest) :
    Scoped.flookup k (Scoped.sdisposeF name f)
      = (Scoped.flookup k f).map (Scoped.sdispose name) := by
  cases f with
  | nil => rfl
  | cons n c rest =>
    simp only [Scoped.sdisposeF, Scoped.flookup]
    by_cases hk : (n == k) = true
    · simp [hk]
    · simp only [Bool.not_eq_true] at hk
      simp [hk, flookup_sdisposeF name k rest]

theorem childrenOf_sdispose (name : String) (t : Scoped.ScopeTree) :
    Scoped.childrenOf (Scoped.sdispose name t) = Scoped.sdisposeF name (Scoped.childrenOf t) := by
  cases t with
  | node ch r sb children nH => rfl

theorem nodeAt_sdispose (name : String) (p : List String) (t : Scoped.ScopeTree) :
    Scoped.nodeAt (Scoped.sdispose name t) p
      = (Scoped.nodeAt t p).map (Scoped.sdispose name) := by
  induction p generalizing t with
  | nil => rfl
  | cons k rest ih =>
    simp only [Scoped.nodeAt, childrenOf_sdispose, flookup_sdisposeF]
    cases hf : Scoped.flookup k (Scoped.childrenOf t) with
    | none => rfl
    | some c => simpa using ih c

theorem setDead_getElem (r : List Scoped.SReplayNode) (idx : Nat) (h : idx < r.length) :
    (Scoped.setDead idx r)[idx]?
      = (r[idx]?).map (fun nd => { nd with keepAliveOpen := false }) := by
  induction r generalizing idx with
  | nil => simp at h
  | cons nd rest ih =>
    cases idx with
    | zero => simp [Scoped.setDead]
    | succ i =>
      have := ih i (by simpa using h)
      simpa [Scoped.setDead] using this

theorem disposeReplays_get (name : String) (ch : List (String × Scoped.SChannelModel))
    (r : List Scoped.SReplayNode) (m : Scoped.SChannelModel) (idx : Nat)
    (hm : lookupAssoc name ch = some m) (hs : m.subscription = some idx)
    (hlen : idx < r.length) :
    ((Scoped.disposeReplays name ch r)[idx]?).map Scoped.SReplayNode.keepAliveOpen
      = some false := by
  have hd : Scoped.disposeReplays name ch r = Scoped.setDead idx r := by
    simp [Scoped.disposeReplays, hm, hs]
  rw [hd, setDead_getElem r idx hlen]
  have hex : ∃ nd, r[idx]? = some nd := by
    rw [List.getElem?_eq_getElem hlen]
    exact ⟨_, rfl⟩
  obtain ⟨nd, hnd⟩ := hex
  rw [hnd]
  rfl

theorem replaysOf_sdispose (name : String) (t : Scoped.ScopeTree) :
    Scoped.replaysOf (Scoped.sdispose name t)
      = Scoped.disposeReplays name (Scoped.channelsOf t) (Scoped.replaysOf t) := by
  cases t with
  | node ch r sb children nH => rfl

/-- C9: scope-tree `dispose(channelName)` removes the channel from this
instance's registry and from every descendant's registry; on every
descendant that held the channel with a caching keepalive, that keepalive
subscription is closed; disposing a name that is absent everywhere leaves
the whole tree unchanged (and the function is total, so it never throws);
and disposing the same name twice equals disposing it once. -/
theorem scoped_dispose_recursive (name : String) :
    (∀ t : Scoped.ScopeTree, Scoped.channelAbsent name (Scoped.sdispose name t) = true)
      ∧ (∀ (t : Scoped.ScopeTree) (path : List String) (u : Scoped.ScopeTree)
          (m : Scoped.SChannelModel) (idx : Nat),
          Scoped.nodeAt t path = some u →
          lookupAssoc name (Scoped.channelsOf u) = some m →
          m.subscription = some idx → idx < (Scoped.replaysOf u).length →
          ∃ u2, Scoped.nodeAt (Scoped.sdispose name t) path = some u2
            ∧ ((Scoped.replaysOf u2)[idx]?).map Scoped.SReplayNode.keepAliveOpen = some false)
      ∧ (∀ t, Scoped.channelAbsent name t = true → Scoped.sdispose name t = t)
      ∧ (∀ t, Scoped.sdispose name (Scoped.sdispose name t) = Scoped.sdispose name t) := by
  refine ⟨sdispose_absent name, ?_, sdispose_noop name,
    fun t => sdispose_noop name _ (sdispose_absent name t)⟩
  intro t path u m idx h1 h2 h3 h4
  refine ⟨Scoped.sdispose name u, ?_, ?_⟩
  · rw [nodeAt_sdispose, h1]
    rfl
  · rw [replaysOf_sdispose]
    exact disposeReplays_get name _ _ m idx h2 h3 h4

/-- Witness for C9: a parent whose child holds the cached channel chat with
an open keepalive; after the parent disposes chat, the child's keepalive is
closed. -/
theorem scoped_dispose_recursive_witness :
    (Scoped.nodeAt scopeCachedParent ["kid"] = some scopeCachedChild
        ∧ lookupAssoc "chat" (Scoped.channelsOf scopeCachedChild)
            = some ⟨Target.replay 0, 0, some ⟨some 2⟩, some 0⟩
        ∧ (⟨Target.replay 0, 0, some ⟨some 2⟩, some 0⟩ : Scoped.SChannelModel).subscription
            = some 0
        ∧ 0 < (Scoped.replaysOf scopeCachedChild).length)
      ∧ (∃ u2, Scoped.nodeAt (Scoped.sdispose "chat" scopeCachedParent) ["kid"] = some u2
          ∧ ((Scoped.replaysOf u2)[0]?).map Scoped.SReplayNode.keepAliveOpen = some false) :=
  ⟨⟨by rfl, by rfl, by rfl, by decide⟩,
    (scoped_dispose_recursive "chat").2.1 scopeCachedParent ["kid"] scopeCachedChild
      ⟨Target.replay 0, 0, some ⟨some 2⟩, some 0⟩ 0 (by rfl) (by rfl) (by rfl) (by decide)⟩

end MB

/-! ## Lemmas for the replay-cache semantics (C1) -/

namespace MB

theorem takeLast_append {α : Type} (n : Nat) (x m : List α) :
    takeLast n (x ++ m) = takeLast (n - m.length) x ++ takeLast n m := by
  unfold takeLast
  rcases Nat.le_total n m.length with h | h
  · have h1 : n - m.length = 0 := by omega
    have h2 : (x ++ m).length - n = x.length + (m.length - n) := by
      simp
      omega
    rw [h1, h2, List.drop_append, Nat.sub_zero, List.drop_length, List.nil_append]
  · have h2 : (x ++ m).length - n = x.length - (n - m.length) := by
      simp
      omega
    have h3 : x.length - (n - m.length) ≤ x.length := by omega
    have h4 : m.length - n = 0 := by omega
    rw [h2, List.drop_append_of_le_length h3, h4, List.drop_zero]

theorem takeLast_takeLast {α : Type} (a b : Nat) (l : List α) :
    takeLast a (takeLast b l) = takeLast (min a b) l := by
  unfold takeLast
  rw [List.length_drop, List.drop_drop]
  congr 1
  omega

theorem takeLast_idem_append {α : Type} (n : Nat) (l m : List α) :
    takeLast n (takeLast n l ++ m) = takeLast n (l ++ m) := by
  rw [takeLast_append, takeLast_takeLast, takeLast_append]
  have hmin : min (n - m.length) n = n - m.length := by omega
  rw [hmin]

theorem takeLast_self {α : Type} (n : Nat) (l : List α) :
    takeLast n (takeLast n l) = takeLast n l := by
  rw [takeLast_takeLast]
  have : min n n = n := by omega
  rw [this]

theorem takeLast_map {α β : Type} (f : α → β) (n : Nat) (l : List α) :
    (takeLast n l).map f = takeLast n (l.map f) := by
  unfold takeLast
  rw [List.map_drop, List.length_map]

theorem takeLast_length_of_le {α : Type} (n : Nat) (l : List α) (h : n ≤ l.length) :
    (takeLast n l).length = n := by
  unfold takeLast
  rw [List.length_drop]
  omega

theorem msgsFrom_length (i c : Nat) (channelName : String) (ds : List Nat) :
    (msgsFrom i c channelName ds).length = ds.length := by
  induction ds generalizing i c with
  | nil => rfl
  | cons d ds ih => simpa [msgsFrom] using ih (i + 1) (c + 1)

theorem msgsFrom_map_data (i c : Nat) (channelName : String) (ds : List Nat) :
    (msgsFrom i c channelName ds).map Msg.data = ds := by
  induction ds generalizing i c with
  | nil => rfl
  | cons d ds ih => simpa [msgsFrom] using ih (i + 1) (c + 1)

theorem publish_replays_get (s : BrokerState) (channelName : String) (d : Nat) (idx : Nat)
    (nd : ReplayNode) (hnd : s.replays[idx]? = some nd) :
    (publish s channelName d).replays[idx]? =
      some (if nd.name == channelName then
        { nd with buf := takeLast nd.cap (nd.buf ++ [createMessage s channelName d none]) }
      else nd) := by
  rw [publish_eq]
  simp [subjectNext, List.getElem?_map, hnd, createMessage]

theorem publish_nextMsgId (s : BrokerState) (channelName : String) (d : Nat) :
    (publish s channelName d).nextMsgId = s.nextMsgId + 1 := by
  rw [publish_eq]

theorem publish_clock (s : BrokerState) (channelName : String) (d : Nat) :
    (publish s channelName d).clock = s.clock + 1 := by
  rw [publish_eq]

theorem publishList_cons (s : BrokerState) (channelName : String) (d : Nat) (ds : List Nat) :
    publishList s channelName (d :: ds) = publishList (publish s channelName d) channelName ds :=
  rfl

theorem publishList_channels (s : BrokerState) (channelName : String) (ds : List Nat) :
    (publishList s channelName ds).channels = s.channels := by
  induction ds generalizing s with
  | nil => rfl
  | cons d ds ih =>
    rw [publishList_cons, ih, publish_channels]

theorem publishList_subs_length (s : BrokerState) (channelName : String) (ds : List Nat) :
    (publishList s channelName ds).subs.length = s.subs.length := by
  induction ds generalizing s with
  | nil => rfl
  | cons d ds ih =>
    rw [publishList_cons, ih, publish_subs_length]

theorem publishList_nextMsgId (s : BrokerState) (channelName : String) (ds : List Nat) :
    (publishList s channelName ds).nextMsgId = s.nextMsgId + ds.length := by
  induction ds generalizing s with
  | nil => rfl
  | cons d ds ih =>
    rw [publishList_cons, ih, publish_nextMsgId]
    simp
    omega

theorem publishList_clock (s : BrokerState) (channelName : String) (ds : List Nat) :
    (publishList s channelName ds).clock = s.clock + ds.length := by
  induction ds generalizing s with
  | nil => rfl
  | cons d ds ih =>
    rw [publishList_cons, ih, publish_clock]
    simp
    omega

theorem publishList_replays_get (s : BrokerState) (channelName : String) (ds : List Nat)
    (idx : Nat) (nd : ReplayNode)
    (hnd : s.replays[idx]? = some nd) (hname : nd.name = channelName)
    (hbuf : takeLast nd.cap nd.buf = nd.buf) :
    (publishList s channelName ds).replays[idx]? =
      some { nd with
        buf := takeLast nd.cap (nd.buf ++ msgsFrom s.nextMsgId s.clock channelName ds) } := by
  induction ds generalizing s nd with
  | nil =>
    simp only [publishList, List.foldl, msgsFrom, List.append_nil, hbuf]
    rw [hnd]
  | cons d ds ih =>
    rw [publishList_cons]
    have hstep := publish_replays_get s channelName d idx nd hnd
    rw [show (nd.name == channelName) = true by simp [hname]] at hstep
    simp only [if_true] at hstep
    have ihres := ih (publish s channelName d)
      { nd with buf := takeLast nd.cap (nd.buf ++ [createMessage s channelName d none]) }
      hstep hname (by rw [takeLast_self])
    rw [ihres, publish_nextMsgId, publish_clock]
    rw [takeLast_idem_append]
    rw [List.append_assoc]
    rfl

theorem publishList_subs_filtered (s : BrokerState) (channelName : String) (es : List Nat)
    (j : Nat) (su : Subscriber)
    (hj : s.subs[j]? = some su) (htar : su.target = Target.filtered channelName) :
    (publishList s channelName es).subs[j]? =
      some ⟨su.target, su.received ++ msgsFrom s.nextMsgId s.clock channelName es⟩ := by
  induction es generalizing s su with
  | nil =>
    simp only [publishList, List.foldl, msgsFrom, List.append_nil]
    rw [hj]
  | cons d ds ih =>
    rw [publishList_cons]
    have hstep := publish_subs_get s channelName d j su hj
    rw [show deliversTo s.replays su.target channelName = true by
      simp [htar, deliversTo]] at hstep
    simp only [if_true] at hstep
    have ihres := ih (publish s channelName d)
      { su with received := su.received ++ [createMessage s channelName d none] } hstep htar
    rw [ihres, publish_nextMsgId, publish_clock, List.append_assoc]
    rfl

theorem publishList_subs_replay (s : BrokerState) (channelName : String) (es : List Nat)
    (j idx : Nat) (su : Subscriber) (nd : ReplayNode)
    (hj : s.subs[j]? = some su) (htar : su.target = Target.replay idx)
    (hnd : s.replays[idx]? = some nd) (hname : nd.name = channelName) :
    (publishList s channelName es).subs[j]? =
      some ⟨su.target, su.received ++ msgsFrom s.nextMsgId s.clock channelName es⟩ := by
  induction es generalizing s su nd with
  | nil =>
    simp only [publishList, List.foldl, msgsFrom, List.append_nil]
    rw [hj]
  | cons d ds ih =>
    rw [publishList_cons]
    have hstep := publish_subs_get s channelName d j su hj
    rw [show deliversTo s.replays su.target channelName = true by
      simp [htar, deliversTo, hnd, hname]] at hstep
    simp only [if_true] at hstep
    have hstepnd := publish_replays_get s channelName d idx nd hnd
    rw [show (nd.name == channelName) = true by simp [hname]] at hstepnd
    simp only [if_true] at hstepnd
    have ihres := ih (publish s channelName d)
      { su with received := su.received ++ [createMessage s channelName d none] }
      { nd with buf := takeLast nd.cap (nd.buf ++ [createMessage s channelName d none]) }
      hstep htar hstepnd hname
    rw [ihres, publish_nextMsgId, publish_clock, List.append_assoc]
    rfl

end MB

/-! ## C1: replay-cache and no-cache delivery semantics -/

namespace MB

/-- C1: starting from a broker where `channelName` does not exist, (a) after
creating it with `replayCacheSize = N` (N at least 1) and publishing the
payloads `ds` (at least N of them), a new subscriber immediately receives
exactly the last N of those messages in publish order (their payloads are
`takeLast N ds` and there are exactly N of them), followed by every message
published after its subscription, in order; and (b) after creating it with
no config, a new subscriber receives nothing published before it subscribed
and exactly the messages published afterwards. -/
theorem replay_cache_semantics (s : BrokerState) (channelName : String) (N : Nat)
    (ds es : List Nat) (hN : 1 ≤ N) (hM : N ≤ ds.length)
    (hlk : lookupAssoc channelName s.channels = none) :
    (∃ su : Subscriber,
        (subscribe (publishList (create s channelName (some ⟨some N⟩)).2 channelName ds)
            channelName).subs[s.subs.length]? = some su
          ∧ su.received.map Msg.data = takeLast N ds
          ∧ su.received.length = N
          ∧ (publishList (subscribe (publishList (create s channelName (some ⟨some N⟩)).2
                channelName ds) channelName) channelName es).subs[s.subs.length]?
              = some ⟨su.target, su.received
                  ++ msgsFrom (s.nextMsgId + ds.length) (s.clock + ds.length) channelName es⟩
          ∧ (su.received
                ++ msgsFrom (s.nextMsgId + ds.length) (s.clock + ds.length) channelName es).map
                Msg.data
              = takeLast N ds ++ es)
      ∧ (∃ su2 : Subscriber,
          (subscribe (publishList (create s channelName none).2 channelName ds)
              channelName).subs[s.subs.length]? = some su2
            ∧ su2.received = []
            ∧ (publishList (subscribe (publishList (create s channelName none).2 channelName ds)
                  channelName) channelName es).subs[s.subs.length]?
                = some ⟨su2.target,
                    msgsFrom (s.nextMsgId + ds.length) (s.clock + ds.length) channelName es⟩
            ∧ (msgsFrom (s.nextMsgId + ds.length) (s.clock + ds.length) channelName es).map
                Msg.data = es) := by
  have hN0 : ¬ N = 0 := by omega
  constructor
  · -- cached half
    set idx := s.replays.length with hidx
    set model : ChannelModel :=
      ⟨.replay idx, ⟨s.nextHandleId, channelName⟩, some ⟨some N⟩, some idx⟩ with hmodel
    have h1 : (create s channelName (some ⟨some N⟩)).2 =
        { s with
          replays := s.replays ++ [⟨channelName, N, []⟩],
          channels := setAssoc channelName model s.channels,
          nextHandleId := s.nextHandleId + 1 } := by
      simp [create, hlk, createChannelImpl, truthyCacheSize, hN0, hmodel, hidx]
    set msgs := msgsFrom s.nextMsgId s.clock channelName ds with hmsgs
    set s2 := publishList (create s channelName (some ⟨some N⟩)).2 channelName ds with hs2
    have hnode2 : s2.replays[idx]? = some ⟨channelName, N, takeLast N msgs⟩ := by
      rw [hs2, h1]
      have hpl := publishList_replays_get
        { s with
          replays := s.replays ++ [⟨channelName, N, []⟩],
          channels := setAssoc channelName model s.channels,
          nextHandleId := s.nextHandleId + 1 }
        channelName ds idx ⟨channelName, N, []⟩ (by simp [hidx]) rfl (by simp [takeLast])
      rw [hpl]
      simp [hmsgs]
    have hch2 : lookupAssoc channelName s2.channels = some model := by
      rw [hs2, publishList_channels, h1]
      exact lookup_setAssoc_self _ _ _
    have hlen2 : s2.subs.length = s.subs.length := by
      rw [hs2, publishList_subs_length, h1]
    have h3 : subscribe s2 channelName =
        { s2 with subs := s2.subs ++ [⟨.replay idx, takeLast N msgs⟩] } := by
      simp only [subscribe, hch2, hmodel, hnode2]
    refine ⟨⟨.replay idx, takeLast N msgs⟩, ?_, ?_, ?_, ?_, ?_⟩
    · rw [h3]
      simp only [← hlen2]
      simp
    · rw [takeLast_map, hmsgs, msgsFrom_map_data]
    · rw [takeLast_length_of_le]
      rw [hmsgs, msgsFrom_length]
      exact hM
    · have hjs : (subscribe s2 channelName).subs[s.subs.length]?
          = some ⟨.replay idx, takeLast N msgs⟩ := by
        rw [h3]
        simp only [← hlen2]
        simp
      have hrep3 : (subscribe s2 channelName).replays[idx]?
          = some ⟨channelName, N, takeLast N msgs⟩ := by
        rw [h3]
        exact hnode2
      have := publishList_subs_replay (subscribe s2 channelName) channelName es
        s.subs.length idx ⟨.replay idx, takeLast N msgs⟩ ⟨channelName, N, takeLast N msgs⟩
        hjs rfl hrep3 rfl
      rw [this]
      have hmid : (subscribe s2 channelName).nextMsgId = s.nextMsgId + ds.length := by
        rw [h3]
        show s2.nextMsgId = _
        rw [hs2, publishList_nextMsgId, h1]
      have hclk : (subscribe s2 channelName).clock = s.clock + ds.length := by
        rw [h3]
        show s2.clock = _
        rw [hs2, publishList_clock, h1]
      rw [hmid, hclk]
    · rw [List.map_append, takeLast_map, hmsgs, msgsFrom_map_data, msgsFrom_map_data]
  · -- uncached half
    set modelU : ChannelModel :=
      ⟨.filtered channelName, ⟨s.nextHandleId, channelName⟩, none, none⟩ with hmodelU
    have h1 : (create s channelName none).2 =
        { s with
          channels := setAssoc channelName modelU s.channels,
          nextHandleId := s.nextHandleId + 1 } := by
      simp [create, hlk, createChannelImpl, truthyCacheSize, hmodelU]
    set s2 := publishList (create s channelName none).2 channelName ds with hs2
    have hch2 : lookupAssoc channelName s2.channels = some modelU := by
      rw [hs2, publishList_channels, h1]
      exact lookup_setAssoc_self _ _ _
    have hlen2 : s2.subs.length = s.subs.length := by
      rw [hs2, publishList_subs_length, h1]
    have h3 : subscribe s2 channelName =
        { s2 with subs := s2.subs ++ [⟨.filtered channelName, []⟩] } := by
      simp only [subscribe, hch2, hmodelU]
    refine ⟨⟨.filtered channelName, []⟩, ?_, rfl, ?_, ?_⟩
    · rw [h3]
      simp only [← hlen2]
      simp
    · have hjs : (subscribe s2 channelName).subs[s.subs.length]?
          = some ⟨.filtered channelName, []⟩ := by
        rw [h3]
        simp only [← hlen2]
        simp
      have := publishList_subs_filtered (subscribe s2 channelName) channelName es
        s.subs.length ⟨.filtered channelName, []⟩ hjs rfl
      rw [this]
      have hmid : (subscribe s2 channelName).nextMsgId = s.nextMsgId + ds.length := by
        rw [h3]
        show s2.nextMsgId = _
        rw [hs2, publishList_nextMsgId, h1]
      have hclk : (subscribe s2 channelName).clock = s.clock + ds.length := by
        rw [h3]
        show s2.clock = _
        rw [hs2, publishList_clock, h1]
      rw [hmid, hclk]
      rfl
    · rw [msgsFrom_map_data]

end MB

/-! ## Witness for C1 -/

namespace MB

/-- Witness for C1 on the empty broker, channel room, cache size 2, three
publishes before subscription and one after. -/
theorem replay_cache_semantics_witness :
    (1 ≤ 2 ∧ 2 ≤ ([1, 2, 3] : List Nat).length
        ∧ lookupAssoc "room" initialState.channels = none)
      ∧ ((∃ su : Subscriber,
          (subscribe (publishList (create initialState "room" (some ⟨some 2⟩)).2 "room" [1, 2, 3])
              "room").subs[initialState.subs.length]? = some su
            ∧ su.received.map Msg.data = takeLast 2 [1, 2, 3]
            ∧ su.received.length = 2
            ∧ (publishList (subscribe (publishList
                  (create initialState "room" (some ⟨some 2⟩)).2 "room" [1, 2, 3]) "room")
                  "room" [4]).subs[initialState.subs.length]?
                = some ⟨su.target, su.received
                    ++ msgsFrom (initialState.nextMsgId + ([1, 2, 3] : List Nat).length)
                      (initialState.clock + ([1, 2, 3] : List Nat).length) "room" [4]⟩
            ∧ (su.received
                  ++ msgsFrom (initialState.nextMsgId + ([1, 2, 3] : List Nat).length)
                    (initialState.clock + ([1, 2, 3] : List Nat).length) "room" [4]).map Msg.data
                = takeLast 2 [1, 2, 3] ++ [4])
        ∧ (∃ su2 : Subscriber,
            (subscribe (publishList (create initialState "room" none).2 "room" [1, 2, 3])
                "room").subs[initialState.subs.length]? = some su2
              ∧ su2.received = []
              ∧ (publishList (subscribe (publishList (create initialState "room" none).2 "room"
                    [1, 2, 3]) "room") "room" [4]).subs[initialState.subs.length]?
                  = some ⟨su2.target,
                      msgsFrom (initialState.nextMsgId + ([1, 2, 3] : List Nat).length)
                        (initialState.clock + ([1, 2, 3] : List Nat).length) "room" [4]⟩
              ∧ (msgsFrom (initialState.nextMsgId + ([1, 2, 3] : List Nat).length)
                    (initialState.clock + ([1, 2, 3] : List Nat).length) "room" [4]).map Msg.data
                  = [4])) :=
  ⟨⟨by decide, by decide, by decide⟩,
    replay_cache_semantics initialState "room" 2 [1, 2, 3] [4] (by decide) (by decide) (by decide)⟩

end MB
